import Mathlib

/-!
# Verification of the generals territory-conquest game engine

This file gives a shallow embedding of the repository's components and proves
the specified properties about them.

The provided sources contain the agent policies (`generals/agents.py`), the
Gymnasium environment wrappers (`generals/envs/gymnasium_generals.py`,
`generals/envs/gymnasium_integration.py`) and GUI properties.  The core engine
(`generals/core/game.py`, `generals/core/grid.py`, `generals/core/replay.py`,
`generals/core/config.py`) is referenced by those sources but is not included,
so the engine-level definitions below are modelled from the specification, as
their doc comments note.
-/

namespace Generals

/-- Cell terrain kinds of the grid (spec §3). -/
inductive Terrain where
  | passable
  | mountain
  | city
  | general
deriving DecidableEq

/-- Agent identities.  The Python sources use string names; identities here are
naturals, ordered so that "ascending agent identity" is meaningful. -/
abbrev AgentId := Nat

/-- Modelled from the spec: `GameState` of `generals/core/game.py` (not under
the provided sources).  Mutable per-cell army/ownership/terrain channels, the
set of living agents, the registered agents and the turn counter (spec §3). -/
structure GameState where
  rows : Nat
  cols : Nat
  army : Nat → Nat → Nat
  owner : Nat → Nat → Option AgentId
  terrain : Nat → Nat → Terrain
  alive : List AgentId
  agents : List AgentId
  turn : Nat

/-- Modelled from the spec: a parsed `Action` — `source = (row, col)`,
a direction and a split flag; `toMove = false` is the explicit idle (spec §3). -/
structure Action where
  toMove : Bool
  row : Nat
  col : Nat
  dir : Nat
  split : Bool
deriving DecidableEq

/-- Modelled from the spec: the error taxonomy of §7 (the exception classes of
the missing core modules). -/
inductive GameError where
  | invalidActionError
  | replayCorruptionError
deriving DecidableEq

/-- Modelled from the spec: direction offsets for UP, DOWN, LEFT, RIGHT
(`generals/core/config.py` is referenced by the sources but not included). -/
def dirDelta : Nat → Option (Int × Int)
  | 0 => some (-1, 0)
  | 1 => some (1, 0)
  | 2 => some (0, -1)
  | 3 => some (0, 1)
  | _ => none

/-- Destination cell of a move: source plus direction offset, `none` when the
direction is invalid or the destination is off-grid. -/
def destOf (s : GameState) (r c d : Nat) : Option (Nat × Nat) :=
  match dirDelta d with
  | none => none
  | some (dr, dc) =>
    if 0 ≤ (r : Int) + dr ∧ (r : Int) + dr < (s.rows : Int) ∧
        0 ≤ (c : Int) + dc ∧ (c : Int) + dc < (s.cols : Int) then
      some (((r : Int) + dr).toNat, ((c : Int) + dc).toNat)
    else none

/-- Modelled from the spec: an action is semantically valid when the source
cell is owned by the acting agent, its army exceeds 1, and the destination is
on-grid and not a MOUNTAIN; otherwise `step` downgrades it to idle (spec §4.2
step 1). -/
def validMove (s : GameState) (a : AgentId) (r c d : Nat) : Bool :=
  decide (s.owner r c = some a) && decide (1 < s.army r c) &&
    (match destOf s r c d with
     | some (i, j) => !(decide (s.terrain i j = Terrain.mountain))
     | none => false)

/-- Modelled from the spec: the ObservationBuilder's legal-action mask entry at
`(row, col, direction)` — true iff the source cell is owned by the requesting
agent, has army > 1, and the destination is on-grid and not MOUNTAIN (spec
§4.3).  It is a pure function of the state: computing it mutates nothing. -/
def legalMask (s : GameState) (a : AgentId) (r c d : Nat) : Bool :=
  match destOf s r c d with
  | none => false
  | some (i, j) =>
    decide (s.owner r c = some a) && decide (s.army r c > 1) &&
      !(decide (s.terrain i j = Terrain.mountain))

/-- Modelled from the spec: parsing of the raw `[pass, row, col, direction,
split]` action array used by the environment wrappers; any other shape is
structurally malformed. -/
def parseAction : List Nat → Option Action
  | [p, r, c, d, sp] =>
    if p ≤ 1 ∧ d < 4 ∧ sp ≤ 1 then some ⟨p == 0, r, c, d, sp == 1⟩ else none
  | _ => none

/-- Modelled from the spec: step 1 of the resolution order — a semantically
illegal (or explicitly idle) action is silently downgraded to idle, never an
error (spec §4.2). -/
def downgrade (s : GameState) (a : AgentId) (act : Action) : Option Action :=
  if act.toMove && validMove s a act.row act.col act.dir then some act else none

/-- Modelled from the spec: the land-growth interval constant (default 50). -/
def LAND_GROWTH_INTERVAL : Nat := 50

/-- Modelled from the spec: step 2 of the resolution order — every cell owned
by a living agent with terrain GENERAL or CITY gains +1 army; every other
owned cell gains +1 only when `turn mod LAND_GROWTH_INTERVAL = 0`; growth is
applied to all agents before any movement (spec §4.2). -/
def growPhase (s : GameState) : GameState :=
  { s with army := fun r c =>
      match s.owner r c with
      | some a =>
        if a ∈ s.alive then
          if s.terrain r c = Terrain.general ∨ s.terrain r c = Terrain.city then
            s.army r c + 1
          else if s.turn % LAND_GROWTH_INTERVAL = 0 then s.army r c + 1
          else s.army r c
        else s.army r c
      | none => s.army r c }

/-- Point update of the army channel. -/
def updArmy (s : GameState) (r c v : Nat) : GameState :=
  { s with army := fun r' c' => if r' = r ∧ c' = c then v else s.army r' c' }

/-- Point update of the army and owner channels. -/
def updCell (s : GameState) (r c : Nat) (o : Option AgentId) (v : Nat) : GameState :=
  { s with
    army := fun r' c' => if r' = r ∧ c' = c then v else s.army r' c',
    owner := fun r' c' => if r' = r ∧ c' = c then o else s.owner r' c' }

/-- Modelled from the spec: the moved amount — half the source army rounded
down on a split move, all but one otherwise (spec §4.2 step 3). -/
def movedAmount (army : Nat) (split : Bool) : Nat :=
  if split then army / 2 else army - 1

/-- Modelled from the spec: elimination of agent `b` after its GENERAL was
captured by `a` — every cell still owned by `b` transfers to `a` with its army
halved (rounded down), and `b` is removed from `alive` (spec §4.2 step 3). -/
def eliminate (s : GameState) (a b : AgentId) : GameState :=
  { s with
    owner := fun r c => if s.owner r c = some b then some a else s.owner r c,
    army := fun r c => if s.owner r c = some b then s.army r c / 2 else s.army r c,
    alive := s.alive.filter (fun x => x ≠ b) }

/-- Modelled from the spec: movement and combat of one validated action of
agent `a` (spec §4.2 step 3): the moved army leaves the source; a same-owner
destination merges; otherwise the destination army is reduced, with capture
(and possible elimination) when the result would be negative, neutralization
at exactly zero, and no ownership change when defense remains. -/
def applyMove (s : GameState) (a : AgentId) (act : Action) : GameState :=
  match destOf s act.row act.col act.dir with
  | none => s
  | some (i, j) =>
    let srcArmy := s.army act.row act.col
    let moved := movedAmount srcArmy act.split
    let destOwner := s.owner i j
    let destArmy := s.army i j
    let sA := updArmy s act.row act.col (srcArmy - moved)
    if destOwner = some a then
      updArmy sA i j (destArmy + moved)
    else if destArmy < moved then
      let s2 := updCell sA i j (some a) (moved - destArmy)
      match destOwner with
      | some b => if s.terrain i j = Terrain.general then eliminate s2 a b else s2
      | none => s2
    else if destArmy = moved then
      updCell sA i j none 0
    else
      updArmy sA i j (destArmy - moved)

/-- One agent's slot of the movement phase: a downgraded (idle) action or an
agent no longer alive does nothing. -/
def agentAct (s : GameState) (a : AgentId) (oact : Option Action) : GameState :=
  match oact with
  | none => s
  | some act => if a ∈ s.alive then applyMove s a act else s

/-- Modelled from the spec: the movement phase processes one acting agent at a
time in a fixed deterministic order (spec §4.2 step 3). -/
def movePhase (s : GameState) (resolved : List (AgentId × Option Action)) : GameState :=
  resolved.foldl (fun st p => agentAct st p.1 p.2) s

/-- Modelled from the spec: validation resolves, for each living agent, the
submitted raw action into either a validated action or idle, against the
pre-step state (spec §4.2 step 1). -/
def resolveActs (s : GameState) (acts : List (AgentId × List Nat)) :
    List (AgentId × Option Action) :=
  s.alive.map (fun a =>
    (a, (acts.lookup a).bind (fun raw => (parseAction raw).bind (downgrade s a))))

/-- Modelled from the spec: the structural well-formedness check of a step
input — every submitted agent identity must be registered, and every raw
action must parse (spec §4.2, §7). -/
def structCheck (s : GameState) (acts : List (AgentId × List Nat)) : Bool :=
  acts.all (fun p => decide (p.1 ∈ s.agents) && (parseAction p.2).isSome)

/-- Advance the turn counter (spec §4.2 step 5). -/
def advanceTurn (s : GameState) : GameState :=
  { s with turn := s.turn + 1 }

/-- The resolved successor state of a structurally well-formed step:
validation, then growth, then movement, then the turn advance. -/
def stepResult (s : GameState) (acts : List (AgentId × List Nat)) : GameState :=
  advanceTurn (movePhase (growPhase s) (resolveActs s acts))

/-- Modelled from the spec: `Game.step` of `generals/core/game.py` (not under
the provided sources).  On structurally malformed input it fails with
`InvalidActionError`; being a pure function, the caller's state is untouched
in that case (transactional).  Otherwise the whole turn is resolved (spec
§4.2). -/
def step (s : GameState) (acts : List (AgentId × List Nat)) :
    Except GameError GameState :=
  if structCheck s acts then Except.ok (stepResult s acts) else
    Except.error GameError.invalidActionError

/-- Modelled from the spec: the immutable `Grid` — dimensions, terrain layout,
per-agent general placements and starting city strengths (spec §3, §4.1). -/
structure Grid where
  rows : Nat
  cols : Nat
  terrain : Nat → Nat → Terrain
  generals : List (AgentId × Nat × Nat)
  cityArmy : Nat → Nat → Nat

/-- Modelled from the spec: initialization of a `GameState` from a `Grid` —
each general cell starts with army 1 owned by its agent, city cells with their
starting strength, everything else neutral with army 0; all agents alive,
turn 0 (spec §2, §3, §8). -/
def initState (g : Grid) : GameState :=
  let ids := g.generals.map (fun p => p.1)
  { rows := g.rows, cols := g.cols,
    terrain := g.terrain,
    owner := fun r c =>
      (g.generals.find? (fun p => p.2.1 == r && p.2.2 == c)).map (fun p => p.1),
    army := fun r c =>
      if (g.generals.find? (fun p => p.2.1 == r && p.2.2 == c)).isSome then 1
      else if g.terrain r c = Terrain.city then g.cityArmy r c else 0,
    alive := ids, agents := ids, turn := 0 }

/-- The states reachable from initialization by successful `step` calls. -/
inductive Reachable : GameState → Prop where
  | base (g : Grid) : Reachable (initState g)
  | stepped (s t : GameState) (acts : List (AgentId × List Nat)) :
      Reachable s → step s acts = Except.ok t → Reachable t

/-- The per-cell army/ownership invariant of spec §3: a non-GENERAL non-CITY
cell with army 0 is NEUTRAL, and an owned GENERAL or CITY cell has army ≥ 1. -/
def cellOk (s : GameState) (r c : Nat) : Prop :=
  ((s.terrain r c ≠ Terrain.general ∧ s.terrain r c ≠ Terrain.city) →
      s.army r c = 0 → s.owner r c = none) ∧
  ((s.terrain r c = Terrain.general ∨ s.terrain r c = Terrain.city) →
      (s.owner r c).isSome → 1 ≤ s.army r c)

instance (s : GameState) (r c : Nat) : Decidable (cellOk s r c) := by
  unfold cellOk
  infer_instance

/-- The invariant over all on-grid cells. -/
def armyInvariant (s : GameState) : Prop :=
  ∀ r < s.rows, ∀ c < s.cols, cellOk s r c

instance (s : GameState) : Decidable (armyInvariant s) := by
  unfold armyInvariant
  infer_instance

/-- Every owned cell is owned by a living agent. -/
def ownersAlive (s : GameState) : Prop :=
  ∀ r c a, s.owner r c = some a → a ∈ s.alive

/-- Modelled from the spec: the per-agent observation; it exposes the alive
set and the winner flag (spec §3, §4.2 step 4). -/
structure Observation where
  alive : List AgentId
  is_winner : Bool

/-- Modelled from the spec: `Game.agent_observation` — derived from the state,
reporting the alive set and whether the requesting agent is the sole
survivor. -/
def agentObservation (s : GameState) (a : AgentId) : Observation :=
  { alive := s.alive, is_winner := s.alive == [a] }

/-- A successful step from `u` to `v`, as a relation. -/
def StepRel (u v : GameState) : Prop :=
  ∃ acts, step u acts = Except.ok v

/-- `v` follows `u` by zero or more successful steps. -/
def Follows (u v : GameState) : Prop :=
  Relation.ReflTransGen StepRel u v

/-- The state after a step when it succeeds, the unchanged state otherwise. -/
def stepOrSame (s : GameState) (acts : List (AgentId × List Nat)) : GameState :=
  match step s acts with
  | Except.ok t => t
  | Except.error _ => s

/-- Whether a step succeeds, as a decidable check. -/
def stepOkB (s : GameState) (acts : List (AgentId × List Nat)) : Bool :=
  match step s acts with
  | Except.ok _ => true
  | Except.error _ => false

/-! ## Concrete game trace

A 2×3 grid with adjacent generals.  Agent 1 splits twice to hold two plain
cells of army 1, then agent 0 captures agent 1's general; the elimination
halves agent 1's army-1 cells down to 0 while transferring their ownership. -/

/-- A concrete 2×3 grid: generals of agents 0 and 1 at (0,0) and (0,1). -/
def cexGrid : Grid :=
  { rows := 2, cols := 3,
    terrain := fun r c =>
      if r = 0 ∧ c = 0 then Terrain.general
      else if r = 0 ∧ c = 1 then Terrain.general
      else Terrain.passable,
    generals := [(0, 0, 0), (1, 0, 1)],
    cityArmy := fun _ _ => 0 }

/-- Turn 1: both agents idle (generals grow to 2). -/
def cexA1 : List (AgentId × List Nat) := []

/-- Turn 2: agent 1 split-moves its general to the right. -/
def cexA2 : List (AgentId × List Nat) := [(1, [0, 0, 1, 3, 1])]

/-- Turn 3: agent 1 split-moves its general downward. -/
def cexA3 : List (AgentId × List Nat) := [(1, [0, 0, 1, 1, 1])]

/-- Turn 4: agent 0 moves its whole general army onto agent 1's general. -/
def cexA4 : List (AgentId × List Nat) := [(0, [0, 0, 0, 3, 0])]

def cexS0 : GameState := initState cexGrid

def cexS1 : GameState := stepOrSame cexS0 cexA1

def cexS2 : GameState := stepOrSame cexS1 cexA2

def cexS3 : GameState := stepOrSame cexS2 cexA3

def cexS4 : GameState := stepOrSame cexS3 cexA4

/-- The capture move resolved during the fourth turn. -/
def cexAct4 : Action := ⟨true, 0, 0, 3, false⟩

/-- A minimal 1×2 grid with two adjacent generals. -/
def wGrid : Grid :=
  { rows := 1, cols := 2,
    terrain := fun r c =>
      if r = 0 ∧ c = 0 then Terrain.general
      else if r = 0 ∧ c = 1 then Terrain.general
      else Terrain.passable,
    generals := [(0, 0, 0), (1, 0, 1)],
    cityArmy := fun _ _ => 0 }

def wS : GameState := initState wGrid

/-- A concrete 1×3 state used to exercise attack resolution. -/
def wAtk : GameState :=
  { rows := 1, cols := 3,
    army := fun r c =>
      if r = 0 ∧ c = 0 then 5
      else if r = 0 ∧ c = 1 then 4
      else if r = 0 ∧ c = 2 then 9 else 0,
    owner := fun r c =>
      if r = 0 ∧ c = 0 then some 0
      else if r = 0 ∧ c = 1 then some 1
      else if r = 0 ∧ c = 2 then some 1 else none,
    terrain := fun _ _ => Terrain.passable,
    alive := [0, 1], agents := [0, 1], turn := 7 }

/-! ## Replay storage

Modelled from the spec: `generals/core/replay.py` is referenced by the
environment wrappers but not among the provided sources.  A replay is a
versioned container with a header (grid dimensions, terrain layout, agent
metadata) followed by the ordered snapshot sequence (spec §4.4, §6). -/

/-- Modelled from the spec: the `Replay` record — initial grid data, per-agent
metadata (identity and display attribute), and the append-only ordered
snapshot sequence. -/
structure Replay where
  rows : Nat
  cols : Nat
  terrain : List Nat
  agents : List (Nat × Nat)
  snapshots : List (List Nat)
deriving DecidableEq

/-- Modelled from the spec: the fixed layout version tag. -/
def REPLAY_VERSION : Nat := 1

/-- Flatten agent metadata pairs into the stored stream. -/
def encodePairs (l : List (Nat × Nat)) : List Nat :=
  l.bind (fun p => [p.1, p.2])

/-- Read back `n` agent metadata pairs. -/
def decodePairs : Nat → List Nat → Option (List (Nat × Nat) × List Nat)
  | 0, l => some ([], l)
  | n + 1, x :: y :: rest =>
    match decodePairs n rest with
    | some (ps, r) => some ((x, y) :: ps, r)
    | none => none
  | _ + 1, [] => none
  | _ + 1, [_] => none

/-- Flatten the snapshot sequence, each snapshot length-prefixed. -/
def encodeBlocks (l : List (List Nat)) : List Nat :=
  l.bind (fun s => s.length :: s)

/-- Read back `n` length-prefixed snapshots. -/
def decodeBlocks : Nat → List Nat → Option (List (List Nat) × List Nat)
  | 0, l => some ([], l)
  | n + 1, len :: rest =>
    if rest.length < len then none
    else
      match decodeBlocks n (rest.drop len) with
      | some (bs, r) => some (rest.take len :: bs, r)
      | none => none
  | _ + 1, [] => none

/-- Read exactly `n` stream entries. -/
def readN (n : Nat) (l : List Nat) : Option (List Nat × List Nat) :=
  if l.length < n then none else some (l.take n, l.drop n)

/-- Modelled from the spec: `Replay.store` — persist the full snapshot
sequence plus the initial grid and agent metadata in a fixed, versioned
layout (spec §4.4). -/
def store (r : Replay) : List Nat :=
  REPLAY_VERSION :: r.rows :: r.cols :: r.terrain.length ::
    (r.terrain ++ r.agents.length ::
      (encodePairs r.agents ++ r.snapshots.length :: encodeBlocks r.snapshots))

/-- Modelled from the spec: `Replay.load` — reconstruct the stored sequence by
pure data parsing, with no re-execution of game logic; it fails with
`ReplayCorruptionError` when the header's grid metadata cannot reconstruct a
state of the declared dimensions, or the stream is otherwise malformed
(spec §4.4, §7). -/
def load (l : List Nat) : Except GameError Replay :=
  match l with
  | v :: rows :: cols :: tlen :: rest =>
    if v = REPLAY_VERSION then
      if tlen = rows * cols then
        match readN tlen rest with
        | some (terrain, r1) =>
          match r1 with
          | na :: r2 =>
            match decodePairs na r2 with
            | some (ags, r3) =>
              match r3 with
              | ns :: r4 =>
                match decodeBlocks ns r4 with
                | some (snaps, r5) =>
                  if r5 = [] then Except.ok ⟨rows, cols, terrain, ags, snaps⟩
                  else Except.error GameError.replayCorruptionError
                | none => Except.error GameError.replayCorruptionError
              | [] => Except.error GameError.replayCorruptionError
            | none => Except.error GameError.replayCorruptionError
          | [] => Except.error GameError.replayCorruptionError
        | none => Except.error GameError.replayCorruptionError
      else Except.error GameError.replayCorruptionError
    else Except.error GameError.replayCorruptionError
  | _ => Except.error GameError.replayCorruptionError

/-! ## Environment wrapper (from `generals/envs/gymnasium_generals.py`) -/

/-- The game's channels flattened into one snapshot list: armies in row-major
order, then owners (0 for neutral, `a + 1` for agent `a`).  Building the list
reads the channels and copies their values, the deep copy of
`deepcopy(self.game.channels)`. -/
def channelsOf (g : GameState) : List Nat :=
  ((List.range (g.rows * g.cols)).map (fun k => g.army (k / g.cols) (k % g.cols))) ++
    ((List.range (g.rows * g.cols)).map (fun k =>
      match g.owner (k / g.cols) (k % g.cols) with
      | some a => a + 1
      | none => 0))

/-- Modelled from the spec: `Replay.add_state` appends one snapshot. -/
def add_state (r : Replay) (snap : List Nat) : Replay :=
  { r with snapshots := r.snapshots ++ [snap] }

/-- Terrain layout of a grid flattened for the replay header. -/
def terrainFlat (g : Grid) : List Nat :=
  (List.range (g.rows * g.cols)).map (fun k =>
    match g.terrain (k / g.cols) (k % g.cols) with
    | Terrain.passable => 0
    | Terrain.mountain => 1
    | Terrain.city => 2
    | Terrain.general => 3)

/-- The replay record created at reset: grid header, agent metadata, initial
snapshots. -/
def mkReplay (g : Grid) (meta : List (Nat × Nat)) (snaps : List (List Nat)) : Replay :=
  { rows := g.rows, cols := g.cols, terrain := terrainFlat g,
    agents := meta, snapshots := snaps }

/-- The state of a `GymnasiumGenerals` environment: the wrapped game, the two
agent identities, and the optional replay being recorded. -/
structure EnvState where
  game : GameState
  agent_id : AgentId
  npc_id : AgentId
  replay : Option Replay

/-- `GymnasiumGenerals.reset` (gymnasium_generals.py): build a fresh game
from the grid; when a replay file is requested in the options, start a replay
and append the initial snapshot `deepcopy(self.game.channels)`. -/
def envReset (g : Grid) (aid nid : AgentId) (meta : List (Nat × Nat))
    (recordReplay : Bool) : EnvState :=
  let game := initState g
  { game := game, agent_id := aid, npc_id := nid,
    replay := if recordReplay then some (mkReplay g meta [channelsOf game]) else none }

/-- `GymnasiumGenerals.step` (gymnasium_generals.py lines 95–113): obtain the
NPC action from its policy on its observation, step the game with both
agents' actions, and — when a replay is being recorded — append one deep copy
of the game's channels after the turn is resolved. -/
def envStep (e : EnvState) (npcPolicy : Observation → List Nat) (action : List Nat) :
    Except GameError EnvState :=
  let npcAction := npcPolicy (agentObservation e.game e.npc_id)
  match step e.game [(e.agent_id, action), (e.npc_id, npcAction)] with
  | Except.ok g' =>
    Except.ok { e with
      game := g',
      replay := (match e.replay with
        | some rp => some (add_state rp (channelsOf g'))
        | none => none) }
  | Except.error err => Except.error err

/-- The environment state after a successful step, the unchanged one
otherwise. -/
def envStepOrSame (e : EnvState) (npcPolicy : Observation → List Nat)
    (action : List Nat) : EnvState :=
  match envStep e npcPolicy action with
  | Except.ok x => x
  | Except.error _ => e

/-- Whether an environment step succeeds, as a decidable check. -/
def envStepOkB (e : EnvState) (npcPolicy : Observation → List Nat)
    (action : List Nat) : Bool :=
  match envStep e npcPolicy action with
  | Except.ok _ => true
  | Except.error _ => false

/-- A trivial always-idle NPC policy. -/
def wPol : Observation → List Nat := fun _ => [1, 0, 0, 0, 0]

/-- A well-formed concrete replay record. -/
def wReplay : Replay := ⟨1, 2, [0, 0], [(0, 7)], [[1, 2, 3], []]⟩

/-- A replay record whose declared dimensions do not match its terrain. -/
def wReplayBad : Replay := ⟨2, 2, [0], [], []⟩

/-- A concrete environment with replay recording active. -/
def wEnv : EnvState :=
  { game := wS, agent_id := 0, npc_id := 1,
    replay := some (mkReplay wGrid [(0, 3), (1, 4)] [channelsOf wS]) }

def wEnvOut : EnvState := envStepOrSame wEnv wPol [1, 0, 0, 0, 0]

/-! ## Reward functions (from the two environment wrapper sources) -/

/-- The inner observation dictionary: only the winner flag matters to the
default reward. -/
structure InnerObs where
  is_winner : Bool

/-- The observation passed to a reward function, wrapping the inner
observation under the key `observation`. -/
structure RewardObs where
  observation : InnerObs

/-- `GymnasiumGenerals._default_reward` (gymnasium_generals.py lines
116–130): 0 while the game is running, else 1 for the winner and -1 for the
loser. -/
def gymnasiumGenerals_default_reward (observation : RewardObs) (action : List Nat)
    (done : Bool) (info : List (Nat × Nat)) : Int :=
  if done then (if observation.observation.is_winner then 1 else -1) else 0

/-- `Gym_Generals._default_reward` (gymnasium_integration.py lines 125–140):
0 while the game is running, else 1 for the winner and -1 for the loser. -/
def gymIntegration_default_reward (observation : RewardObs) (action : List Nat)
    (done : Bool) (info : List (Nat × Nat)) : Int :=
  if done then (if observation.observation.is_winner then 1 else -1) else 0

/-! ## Agent policies (from `generals/agents.py`) -/

/-- The per-agent observation dictionary fields used by the two policies. -/
structure AgentObservation where
  action_mask : List (List (List Bool))
  army : List (List Nat)
  opponent_cells : List (List Bool)
  neutral_cells : List (List Bool)

/-- Direction-level scan of `np.argwhere` starting at indices `(r, c, d)`. -/
def argDirs : Nat → Nat → Nat → List Bool → List (Nat × Nat × Nat)
  | _, _, _, [] => []
  | r, c, d, b :: t => (if b then [(r, c, d)] else []) ++ argDirs r c (d + 1) t

/-- Column-level scan of `np.argwhere` starting at indices `(r, c)`. -/
def argCols : Nat → Nat → List (List Bool) → List (Nat × Nat × Nat)
  | _, _, [] => []
  | r, c, cell :: t => argDirs r c 0 cell ++ argCols r (c + 1) t

/-- Row-level scan of `np.argwhere` starting at row `r`. -/
def argRows : Nat → List (List (List Bool)) → List (Nat × Nat × Nat)
  | _, [] => []
  | r, row :: t => argCols r 0 row ++ argRows (r + 1) t

/-- `np.argwhere(mask == 1)` over the (row, col, direction) boolean mask:
the index triples of the true entries, in row-major order. -/
def argwhereMask (mask : List (List (List Bool))) : List (Nat × Nat × Nat) :=
  argRows 0 mask

/-- `np.sum(mask)`: the number of true entries. -/
def maskSum (mask : List (List (List Bool))) : Nat :=
  mask.foldl (fun acc row =>
    acc + row.foldl (fun a2 cell => a2 + cell.countP (fun b => b)) 0) 0

/-- Numpy-style indexing: a negative index wraps around from the end. -/
def npIdx (len : Nat) (i : Int) : Nat :=
  (if i < 0 then (len : Int) + i else i).toNat

/-- Read a 2-D numeric numpy array at possibly-negative indices. -/
def get2 (g : List (List Nat)) (i j : Int) : Nat :=
  let row := g.getD (npIdx g.length i) []
  row.getD (npIdx row.length j) 0

/-- Read a 2-D boolean numpy array at possibly-negative indices. -/
def get2b (g : List (List Bool)) (i j : Int) : Bool :=
  let row := g.getD (npIdx g.length i) []
  row.getD (npIdx row.length j) false

/-- Modelled from the spec: `DIRECTIONS` of `generals/core/config.py` (not
among the provided sources) — the UP, DOWN, LEFT, RIGHT offsets used by
`ExpanderAgent.play`. -/
def DIRECTIONS : List (Int × Int) := [(-1, 0), (1, 0), (0, -1), (0, 1)]

/-- `RandomAgent.play` (agents.py lines 29–46).  The two probability draws
and the uniform choice of `np.random` enter as parameters: `idleDraw` is the
outcome of `rand() <= idle_probability`, `splitDraw` of
`rand() <= split_probability`, and `choice` selects among the valid actions.
With no valid action it returns the idle array `[1, 0, 0, 0, 0]`. -/
def randomAgentPlay (idleDraw splitDraw : Bool) (choice : Nat)
    (obs : AgentObservation) : List Nat :=
  let pass_turn : Nat := if idleDraw then 1 else 0
  let split_army : Nat := if splitDraw then 1 else 0
  let valid_actions := argwhereMask obs.action_mask
  if valid_actions.length = 0 then [1, 0, 0, 0, 0]
  else
    let p := valid_actions.getD (choice % valid_actions.length) (0, 0, 0)
    [pass_turn, p.1, p.2.1, p.2.2, split_army]

/-- One scoring entry of `ExpanderAgent.play`: whether the action captures an
opponent cell and whether it captures a neutral cell (it must out-army the
destination by more than 1 to count). -/
def expanderScore (obs : AgentObservation) (act : Nat × Nat × Nat) : Bool × Bool :=
  let d := DIRECTIONS.getD act.2.2 (0, 0)
  let di : Int := (act.1 : Int) + d.1
  let dj : Int := (act.2.1 : Int) + d.2
  if get2 obs.army (act.1 : Int) (act.2.1 : Int) ≤ get2 obs.army di dj + 1 then
    (false, false)
  else
    (get2b obs.opponent_cells di dj, get2b obs.neutral_cells di dj)

/-- `ExpanderAgent.play` (agents.py lines 49–99).  The uniform choices of
`np.random.choice` enter as the `choice` parameter.  With an all-zero mask it
returns the idle array `[1, 0, 0, 0, 0]`; otherwise it prefers a capturing
move onto an opponent cell, then onto a neutral cell, then any valid move,
always with the move flag 0 and the split flag 0. -/
def expanderPlay (choice : Nat) (obs : AgentObservation) : List Nat :=
  let valid_actions := argwhereMask obs.action_mask
  if maskSum obs.action_mask = 0 then [1, 0, 0, 0, 0]
  else
    let scores := valid_actions.map (expanderScore obs)
    let toOpponent := (valid_actions.zip scores).filter (fun q => q.2.1)
    let toNeutral := (valid_actions.zip scores).filter (fun q => q.2.2)
    let act :=
      if toOpponent.length ≠ 0 then
        (toOpponent.getD (choice % toOpponent.length) ((0, 0, 0), false, false)).1
      else if toNeutral.length ≠ 0 then
        (toNeutral.getD (choice % toNeutral.length) ((0, 0, 0), false, false)).1
      else valid_actions.getD (choice % valid_actions.length) (0, 0, 0)
    [0, act.1, act.2.1, act.2.2, 0]

/-- A concrete 1×1 observation whose mask has no legal entry. -/
def wEmptyObs : AgentObservation :=
  { action_mask := [[[false, false, false, false]]],
    army := [[3]],
    opponent_cells := [[false]],
    neutral_cells := [[false]] }

/-! ## Basic frame lemmas -/

theorem destOf_bounds {s : GameState} {r c d i j : Nat}
    (h : destOf s r c d = some (i, j)) : i < s.rows ∧ j < s.cols := by
  unfold destOf at h
  cases hd : dirDelta d with
  | none => rw [hd] at h; exact absurd h (by simp)
  | some p =>
    obtain ⟨dr, dc⟩ := p
    rw [hd] at h
    dsimp only at h
    split at h
    · rename_i hcond
      obtain ⟨h1, h2, h3, h4⟩ := hcond
      simp only [Option.some.injEq, Prod.mk.injEq] at h
      obtain ⟨hi, hj⟩ := h
      subst hi; subst hj
      omega
    · exact absurd h (by simp)

theorem updArmy_fields (s : GameState) (r c v : Nat) :
    (updArmy s r c v).rows = s.rows ∧ (updArmy s r c v).cols = s.cols ∧
    (updArmy s r c v).owner = s.owner ∧ (updArmy s r c v).terrain = s.terrain ∧
    (updArmy s r c v).alive = s.alive ∧ (updArmy s r c v).agents = s.agents ∧
    (updArmy s r c v).turn = s.turn :=
  ⟨rfl, rfl, rfl, rfl, rfl, rfl, rfl⟩

/-- All fields other than army, owner and alive are preserved by a move. -/
theorem applyMove_frame (s : GameState) (a : AgentId) (act : Action) :
    (applyMove s a act).rows = s.rows ∧ (applyMove s a act).cols = s.cols ∧
    (applyMove s a act).terrain = s.terrain ∧ (applyMove s a act).turn = s.turn ∧
    (applyMove s a act).agents = s.agents := by
  unfold applyMove
  dsimp only
  repeat' split
  all_goals exact ⟨rfl, rfl, rfl, rfl, rfl⟩

/-- A move leaves `alive` unchanged unless it eliminates one agent by
filtering it out. -/
theorem applyMove_alive (s : GameState) (a : AgentId) (act : Action) :
    (applyMove s a act).alive = s.alive ∨
    ∃ b i j, destOf s act.row act.col act.dir = some (i, j) ∧ s.owner i j = some b ∧
      (applyMove s a act).alive = s.alive.filter (fun x => x ≠ b) := by
  unfold applyMove
  dsimp only
  cases hd : destOf s act.row act.col act.dir with
  | none => exact Or.inl rfl
  | some p =>
    obtain ⟨i, j⟩ := p
    dsimp only
    split
    · exact Or.inl rfl
    · split
      · split
        · split
          · rename_i b ho _
            exact Or.inr ⟨b, i, j, rfl, ho, rfl⟩
          · exact Or.inl rfl
        · exact Or.inl rfl
      · split
        · exact Or.inl rfl
        · exact Or.inl rfl

theorem agentAct_alive (u : GameState) (a : AgentId) (o : Option Action) :
    (agentAct u a o).alive = u.alive ∨
    ∃ b, (agentAct u a o).alive = u.alive.filter (fun x => x ≠ b) := by
  unfold agentAct
  cases o with
  | none => exact Or.inl rfl
  | some act =>
    dsimp only
    split
    · rcases applyMove_alive u a act with h | ⟨b, i, j, _, _, h⟩
      · exact Or.inl h
      · exact Or.inr ⟨b, h⟩
    · exact Or.inl rfl

theorem agentAct_alive_length (u : GameState) (a : AgentId) (o : Option Action) :
    (agentAct u a o).alive.length ≤ u.alive.length := by
  rcases agentAct_alive u a o with h | ⟨b, h⟩
  · rw [h]
  · rw [h]; exact List.length_filter_le _ _

theorem agentAct_alive_subset (u : GameState) (a : AgentId) (o : Option Action) :
    (agentAct u a o).alive ⊆ u.alive := by
  rcases agentAct_alive u a o with h | ⟨b, h⟩
  · rw [h]; exact fun x hx => hx
  · rw [h]; exact List.filter_subset' _

theorem movePhase_alive_length (u : GameState) (l : List (AgentId × Option Action)) :
    (movePhase u l).alive.length ≤ u.alive.length := by
  induction l generalizing u with
  | nil => exact le_rfl
  | cons p rest ih =>
    calc (movePhase (agentAct u p.1 p.2) rest).alive.length
        ≤ (agentAct u p.1 p.2).alive.length := ih _
      _ ≤ u.alive.length := agentAct_alive_length _ _ _

theorem movePhase_alive_subset (u : GameState) (l : List (AgentId × Option Action)) :
    (movePhase u l).alive ⊆ u.alive := by
  induction l generalizing u with
  | nil => exact fun x hx => hx
  | cons p rest ih =>
    exact fun x hx => agentAct_alive_subset u p.1 p.2 (ih (agentAct u p.1 p.2) hx)


theorem step_eq_ok_of_stepOkB (s : GameState) (acts : List (AgentId × List Nat))
    (h : stepOkB s acts = true) : step s acts = Except.ok (stepOrSame s acts) := by
  unfold stepOkB stepOrSame at *
  cases hs : step s acts with
  | ok t => rfl
  | error e => rw [hs] at h; exact absurd h (by simp)

theorem remain_pos (n : Nat) (sp : Bool) (h : 1 ≤ n) : 1 ≤ n - movedAmount n sp := by
  unfold movedAmount
  cases sp <;> simp <;> omega

theorem moveInvMerge (s : GameState) (a : AgentId) (act : Action) (i j : Nat)
    (hInv : armyInvariant s) (ha : a ∈ s.alive)
    (hmerge : s.owner i j = some a) :
    armyInvariant
      (updArmy (updArmy s act.row act.col
          (s.army act.row act.col - movedAmount (s.army act.row act.col) act.split))
        i j (s.army i j + movedAmount (s.army act.row act.col) act.split)) := by
  intro r hr c hc
  have hcell := hInv r hr c hc
  unfold cellOk at hcell ⊢
  unfold updArmy
  dsimp only
  constructor
  · intro hplain hz
    split at hz
    · rename_i h1
      obtain ⟨rfl, rfl⟩ := h1
      have hz0 : s.army r c = 0 := by omega
      have hnone := hcell.1 hplain hz0
      rw [hnone] at hmerge
      exact absurd hmerge (by simp)
    · split at hz
      · rename_i h2
        obtain ⟨hra, hca⟩ := h2
        by_cases hz0 : s.army r c = 0
        · exact hcell.1 hplain hz0
        · rw [← hra, ← hca] at hz
          have := remain_pos (s.army r c) act.split (by omega)
          omega
      · exact hcell.1 hplain hz
  · intro hgc hsome
    split
    · rename_i h1
      obtain ⟨rfl, rfl⟩ := h1
      have h1le : 1 ≤ s.army r c := hcell.2 hgc hsome
      omega
    · split
      · rename_i h2
        obtain ⟨hra, hca⟩ := h2
        have h1le : 1 ≤ s.army r c := hcell.2 hgc hsome
        rw [← hra, ← hca]
        exact remain_pos _ _ h1le
      · exact hcell.2 hgc hsome



theorem moveInvCapture (s : GameState) (a : AgentId) (act : Action) (i j : Nat)
    (hInv : armyInvariant s)
    (hlt : s.army i j < movedAmount (s.army act.row act.col) act.split) :
    armyInvariant
      (updCell (updArmy s act.row act.col
          (s.army act.row act.col - movedAmount (s.army act.row act.col) act.split))
        i j (some a) (movedAmount (s.army act.row act.col) act.split - s.army i j)) := by
  intro r hr c hc
  have hcell := hInv r hr c hc
  unfold cellOk at hcell ⊢
  unfold updCell updArmy
  dsimp only
  constructor
  · intro hplain hz
    split at hz
    · rename_i h1
      exact absurd hz (by omega)
    · rename_i h1
      rw [if_neg h1]
      split at hz
      · rename_i h2
        obtain ⟨hra, hca⟩ := h2
        by_cases hz0 : s.army r c = 0
        · exact hcell.1 hplain hz0
        · rw [← hra, ← hca] at hz
          have := remain_pos (s.army r c) act.split (by omega)
          omega
      · exact hcell.1 hplain hz
  · intro hgc hsome
    split
    · omega
    · rename_i h1
      split
      · rename_i h2
        obtain ⟨hra, hca⟩ := h2
        rw [if_neg h1] at hsome
        have h1le : 1 ≤ s.army r c := hcell.2 hgc hsome
        rw [← hra, ← hca]
        exact remain_pos _ _ h1le
      · rw [if_neg h1] at hsome
        exact hcell.2 hgc hsome

theorem moveInvNeutral (s : GameState) (a : AgentId) (act : Action) (i j : Nat)
    (hInv : armyInvariant s) :
    armyInvariant
      (updCell (updArmy s act.row act.col
          (s.army act.row act.col - movedAmount (s.army act.row act.col) act.split))
        i j none 0) := by
  intro r hr c hc
  have hcell := hInv r hr c hc
  unfold cellOk at hcell ⊢
  unfold updCell updArmy
  dsimp only
  constructor
  · intro hplain hz
    split
    · rfl
    · rename_i h1
      split at hz
      · rename_i hcond
        exact absurd hcond h1
      · split at hz
        · rename_i h2
          obtain ⟨hra, hca⟩ := h2
          by_cases hz0 : s.army r c = 0
          · exact hcell.1 hplain hz0
          · rw [← hra, ← hca] at hz
            have := remain_pos (s.army r c) act.split (by omega)
            omega
        · exact hcell.1 hplain hz
  · intro hgc hsome
    split at hsome
    · exact absurd hsome (by simp)
    · rename_i h1
      rw [if_neg h1]
      split
      · rename_i h2
        obtain ⟨hra, hca⟩ := h2
        have h1le : 1 ≤ s.army r c := hcell.2 hgc hsome
        rw [← hra, ← hca]
        exact remain_pos _ _ h1le
      · exact hcell.2 hgc hsome

theorem moveInvReduce (s : GameState) (a : AgentId) (act : Action) (i j : Nat)
    (hInv : armyInvariant s)
    (hgt : movedAmount (s.army act.row act.col) act.split < s.army i j) :
    armyInvariant
      (updArmy (updArmy s act.row act.col
          (s.army act.row act.col - movedAmount (s.army act.row act.col) act.split))
        i j (s.army i j - movedAmount (s.army act.row act.col) act.split)) := by
  intro r hr c hc
  have hcell := hInv r hr c hc
  unfold cellOk at hcell ⊢
  unfold updArmy
  dsimp only
  constructor
  · intro hplain hz
    split at hz
    · exact absurd hz (by omega)
    · split at hz
      · rename_i h2
        obtain ⟨hra, hca⟩ := h2
        by_cases hz0 : s.army r c = 0
        · exact hcell.1 hplain hz0
        · rw [← hra, ← hca] at hz
          have := remain_pos (s.army r c) act.split (by omega)
          omega
      · exact hcell.1 hplain hz
  · intro hgc hsome
    split
    · omega
    · split
      · rename_i h2
        obtain ⟨hra, hca⟩ := h2
        have h1le : 1 ≤ s.army r c := hcell.2 hgc hsome
        rw [← hra, ← hca]
        exact remain_pos _ _ h1le
      · exact hcell.2 hgc hsome



theorem ownUpd2 (s : GameState) (r0 c0 v0 r1 c1 v1 : Nat) (hOwn : ownersAlive s) :
    ownersAlive (updArmy (updArmy s r0 c0 v0) r1 c1 v1) :=
  hOwn

theorem ownCapture (s : GameState) (a : AgentId) (r0 c0 v0 i j v : Nat)
    (hOwn : ownersAlive s) (ha : a ∈ s.alive) :
    ownersAlive (updCell (updArmy s r0 c0 v0) i j (some a) v) := by
  intro r c x hx
  unfold updCell updArmy at hx
  dsimp only at hx
  split at hx
  · injection hx with h
    subst h
    exact ha
  · exact hOwn r c x hx

theorem ownNeutral (s : GameState) (r0 c0 v0 i j v : Nat)
    (hOwn : ownersAlive s) :
    ownersAlive (updCell (updArmy s r0 c0 v0) i j none v) := by
  intro r c x hx
  unfold updCell updArmy at hx
  dsimp only at hx
  split at hx
  · exact absurd hx (by simp)
  · exact hOwn r c x hx

theorem filter_ne_length_lt {l : List AgentId} {b : AgentId} (h : b ∈ l) :
    (l.filter (fun x => x ≠ b)).length < l.length := by
  apply List.length_filter_lt_length_iff_exists.mpr
  exact ⟨b, h, by simp⟩

/-- Master lemma: a single move either strictly shrinks `alive` (an
elimination) or preserves `alive` together with both invariants. -/
theorem moveInv (s : GameState) (a : AgentId) (act : Action)
    (hInv : armyInvariant s) (hOwn : ownersAlive s) (ha : a ∈ s.alive) :
    (applyMove s a act).alive.length < s.alive.length ∨
    ((applyMove s a act).alive = s.alive ∧ armyInvariant (applyMove s a act) ∧
      ownersAlive (applyMove s a act)) := by
  cases hd : destOf s act.row act.col act.dir with
  | none =>
    have heq : applyMove s a act = s := by
      unfold applyMove
      rw [hd]
    rw [heq]
    exact Or.inr ⟨rfl, hInv, hOwn⟩
  | some p =>
    obtain ⟨i, j⟩ := p
    have hb := destOf_bounds hd
    unfold applyMove
    rw [hd]
    dsimp only
    split
    · rename_i hmerge
      exact Or.inr ⟨rfl, moveInvMerge s a act i j hInv ha hmerge, ownUpd2 _ _ _ _ _ _ _ hOwn⟩
    · rename_i hne
      split
      · rename_i hlt
        split
        · rename_i b ho
          split
          · rename_i hterr
            left
            have hbmem : b ∈ s.alive := hOwn i j b ho
            exact filter_ne_length_lt hbmem
          · exact Or.inr ⟨rfl, moveInvCapture s a act i j hInv (by omega),
              ownCapture _ _ _ _ _ _ _ _ hOwn ha⟩
        · exact Or.inr ⟨rfl, moveInvCapture s a act i j hInv (by omega),
            ownCapture _ _ _ _ _ _ _ _ hOwn ha⟩
      · rename_i hge
        split
        · rename_i heq0
          exact Or.inr ⟨rfl, moveInvNeutral s a act i j hInv, ownNeutral _ _ _ _ _ _ _ hOwn⟩
        · rename_i hne0
          exact Or.inr ⟨rfl, moveInvReduce s a act i j hInv (by omega),
            ownUpd2 _ _ _ _ _ _ _ hOwn⟩



theorem agentActInv (u : GameState) (a : AgentId) (o : Option Action)
    (hInv : armyInvariant u) (hOwn : ownersAlive u) :
    (agentAct u a o).alive.length < u.alive.length ∨
    ((agentAct u a o).alive = u.alive ∧ armyInvariant (agentAct u a o) ∧
      ownersAlive (agentAct u a o)) := by
  unfold agentAct
  cases o with
  | none => exact Or.inr ⟨rfl, hInv, hOwn⟩
  | some act =>
    dsimp only
    split
    · rename_i ha
      exact moveInv u a act hInv hOwn ha
    · exact Or.inr ⟨rfl, hInv, hOwn⟩

theorem movePhaseInv (l : List (AgentId × Option Action)) (u : GameState)
    (hInv : armyInvariant u) (hOwn : ownersAlive u)
    (hal : (movePhase u l).alive = u.alive) :
    armyInvariant (movePhase u l) ∧ ownersAlive (movePhase u l) := by
  induction l generalizing u with
  | nil => exact ⟨hInv, hOwn⟩
  | cons p rest ih =>
    have hstep : movePhase u (p :: rest) = movePhase (agentAct u p.1 p.2) rest := rfl
    rw [hstep] at hal ⊢
    rcases agentActInv u p.1 p.2 hInv hOwn with hlt | ⟨heq, hInv', hOwn'⟩
    · exfalso
      have h1 : (movePhase (agentAct u p.1 p.2) rest).alive.length ≤
          (agentAct u p.1 p.2).alive.length := movePhase_alive_length _ _
      have h2 : (movePhase (agentAct u p.1 p.2) rest).alive.length = u.alive.length := by
        rw [hal]
      omega
    · exact ih (agentAct u p.1 p.2) hInv' hOwn' (by rw [hal, heq])

theorem growPhase_fields (s : GameState) :
    (growPhase s).rows = s.rows ∧ (growPhase s).cols = s.cols ∧
    (growPhase s).owner = s.owner ∧ (growPhase s).terrain = s.terrain ∧
    (growPhase s).alive = s.alive ∧ (growPhase s).agents = s.agents ∧
    (growPhase s).turn = s.turn :=
  ⟨rfl, rfl, rfl, rfl, rfl, rfl, rfl⟩

theorem growPhase_army_cases (s : GameState) (r c : Nat) :
    (growPhase s).army r c = s.army r c ∨ (growPhase s).army r c = s.army r c + 1 := by
  unfold growPhase
  dsimp only
  cases s.owner r c with
  | none => exact Or.inl rfl
  | some a =>
    dsimp only
    split
    · split
      · exact Or.inr rfl
      · split
        · exact Or.inr rfl
        · exact Or.inl rfl
    · exact Or.inl rfl

theorem growInv (s : GameState) (hInv : armyInvariant s) : armyInvariant (growPhase s) := by
  intro r hr c hc
  have hcell := hInv r hr c hc
  unfold cellOk at hcell ⊢
  rcases growPhase_army_cases s r c with hg | hg <;> rw [hg] <;> constructor
  · exact hcell.1
  · exact hcell.2
  · intro hplain hz
    omega
  · intro hgc hsome
    have := hcell.2 hgc hsome
    omega

theorem growOwn (s : GameState) (hOwn : ownersAlive s) : ownersAlive (growPhase s) :=
  hOwn

theorem stepInv (s t : GameState) (acts : List (AgentId × List Nat))
    (hInv : armyInvariant s) (hOwn : ownersAlive s)
    (hok : step s acts = Except.ok t) (hal : t.alive = s.alive) :
    armyInvariant t ∧ ownersAlive t := by
  unfold step at hok
  split at hok
  · injection hok with ht
    subst ht
    unfold stepResult advanceTurn at hal ⊢
    have h := movePhaseInv (resolveActs s acts) (growPhase s) (growInv s hInv) (growOwn s hOwn)
      (by exact hal)
    exact ⟨h.1, h.2⟩
  · exact absurd hok (by simp)



theorem initInv (g : Grid) : armyInvariant (initState g) := by
  intro r hr c hc
  unfold cellOk initState
  dsimp only
  cases hf : g.generals.find? (fun p => p.2.1 == r && p.2.2 == c) with
  | none =>
    constructor
    · intro _ _
      rfl
    · intro _ hsome
      exact absurd hsome (by simp)
  | some q =>
    constructor
    · intro _ hz
      simp at hz
    · intro _ _
      simp

theorem initOwn (g : Grid) : ownersAlive (initState g) := by
  intro r c x hx
  unfold initState at hx ⊢
  dsimp only at hx ⊢
  cases hf : g.generals.find? (fun p => p.2.1 == r && p.2.2 == c) with
  | none => rw [hf] at hx; exact absurd hx (by simp)
  | some q =>
    rw [hf] at hx
    simp only [Option.map_some'] at hx
    injection hx with h
    have hq : q ∈ g.generals := List.mem_of_find?_eq_some hf
    subst h
    exact List.mem_map_of_mem _ hq

/-- States reachable from initialization through steps none of which
eliminated an agent. -/
inductive ReachableNoElim : GameState → Prop where
  | base (g : Grid) : ReachableNoElim (initState g)
  | stepped (s t : GameState) (acts : List (AgentId × List Nat)) :
      ReachableNoElim s → step s acts = Except.ok t → t.alive = s.alive →
      ReachableNoElim t

theorem reachableNoElim_inv (s : GameState) (h : ReachableNoElim s) :
    armyInvariant s ∧ ownersAlive s := by
  induction h with
  | base g => exact ⟨initInv g, initOwn g⟩
  | stepped u t acts _ hok hal ih => exact stepInv u t acts ih.1 ih.2 hok hal


theorem agentAct_fields (u : GameState) (a : AgentId) (o : Option Action) :
    (agentAct u a o).rows = u.rows ∧ (agentAct u a o).cols = u.cols ∧
    (agentAct u a o).terrain = u.terrain ∧ (agentAct u a o).turn = u.turn ∧
    (agentAct u a o).agents = u.agents := by
  unfold agentAct
  cases o with
  | none => exact ⟨rfl, rfl, rfl, rfl, rfl⟩
  | some act =>
    dsimp only
    split
    · exact applyMove_frame u a act
    · exact ⟨rfl, rfl, rfl, rfl, rfl⟩

theorem movePhase_turn (l : List (AgentId × Option Action)) (u : GameState) :
    (movePhase u l).turn = u.turn := by
  induction l generalizing u with
  | nil => rfl
  | cons p rest ih =>
    have h1 : movePhase u (p :: rest) = movePhase (agentAct u p.1 p.2) rest := rfl
    rw [h1, ih, (agentAct_fields u p.1 p.2).2.2.2.1]

theorem step_alive_subset {s t : GameState} {acts : List (AgentId × List Nat)}
    (h : step s acts = Except.ok t) : t.alive ⊆ s.alive := by
  unfold step at h
  split at h
  · injection h with ht
    subst ht
    exact movePhase_alive_subset (growPhase s) (resolveActs s acts)
  · exact absurd h (by simp)

/-! ## The claims -/

/-- C1: for every mapping of agent identities to raw actions, `step` is
transactional — on structurally well-formed input the whole turn is resolved
and `turn` advances by exactly 1, while an unknown agent identity or a
malformed action shape makes the call fail with `InvalidActionError`; `step`
being a pure function, a failing call leaves the caller's `GameState`
untouched. -/
theorem step_transactional (s : GameState) (acts : List (AgentId × List Nat)) :
    (structCheck s acts = true ↔
      ∀ p ∈ acts, p.1 ∈ s.agents ∧ (parseAction p.2).isSome = true) ∧
    (structCheck s acts = false →
      step s acts = Except.error GameError.invalidActionError) ∧
    (structCheck s acts = true →
      step s acts = Except.ok (stepResult s acts) ∧
      (stepResult s acts).turn = s.turn + 1) := by
  refine ⟨?_, ?_, ?_⟩
  · unfold structCheck
    rw [List.all_eq_true]
    constructor
    · intro h p hp
      have hh := h p hp
      simp only [Bool.and_eq_true, decide_eq_true_eq] at hh
      exact hh
    · intro h p hp
      simp only [Bool.and_eq_true, decide_eq_true_eq]
      exact h p hp
  · intro h
    simp [step, h]
  · intro h
    constructor
    · simp [step, h]
    · unfold stepResult advanceTurn
      dsimp only
      rw [movePhase_turn]
      rfl

/-- C1 witness: a submission naming the unknown agent 5 fails with
`InvalidActionError`; the empty (all-idle) submission resolves and advances
the turn counter by one. -/
theorem step_transactional_witness :
    step wS [(5, [0, 0, 0, 0, 0])] = Except.error GameError.invalidActionError ∧
    (step wS [] = Except.ok (stepResult wS []) ∧
      (stepResult wS []).turn = wS.turn + 1) :=
  ⟨(step_transactional wS [(5, [0, 0, 0, 0, 0])]).2.1 (by decide),
   (step_transactional wS []).2.2 (by decide)⟩

/-- C2: the legal-action mask entry equals the validation predicate that
`step` uses for its silent downgrade to idle: it is true iff the source cell
is owned by the requesting agent with army > 1 and the destination is on-grid
and not a MOUNTAIN, and a move action survives the downgrade exactly when its
mask entry is true.  Both the mask and the downgrade are pure functions of
the state, so computing the mask mutates nothing. -/
theorem legal_mask_exact (s : GameState) (a : AgentId) (r c d : Nat) :
    (legalMask s a r c d = validMove s a r c d) ∧
    (legalMask s a r c d = true ↔
      s.owner r c = some a ∧ 1 < s.army r c ∧
        ∃ i j, destOf s r c d = some (i, j) ∧ s.terrain i j ≠ Terrain.mountain) ∧
    (∀ sp : Bool, downgrade s a ⟨true, r, c, d, sp⟩ =
      (if legalMask s a r c d then some ⟨true, r, c, d, sp⟩ else none)) := by
  have h1 : legalMask s a r c d = validMove s a r c d := by
    unfold legalMask validMove
    cases hd : destOf s r c d with
    | none => simp
    | some p =>
      obtain ⟨i, j⟩ := p
      rfl
  refine ⟨h1, ?_, ?_⟩
  · unfold legalMask
    cases hd : destOf s r c d with
    | none => simp
    | some p =>
      obtain ⟨i, j⟩ := p
      simp only [Bool.and_eq_true, decide_eq_true_eq, gt_iff_lt]
      constructor
      · rintro ⟨⟨ho, harmy⟩, hm⟩
        exact ⟨ho, harmy, i, j, rfl, by simpa using hm⟩
      · rintro ⟨ho, harmy, i2, j2, hij, hm⟩
        injection hij with hij2
        obtain ⟨hh1, hh2⟩ := Prod.mk.injEq i j i2 j2 ▸ hij2
        exact ⟨⟨ho, harmy⟩, by subst hh1; subst hh2; simpa using hm⟩
  · intro sp
    unfold downgrade
    dsimp only
    rw [Bool.true_and, h1]

/-- C3: in the growth phase, a cell owned by a living agent gains exactly +1
army when its terrain is GENERAL or CITY; any other owned cell gains exactly
+1 iff `turn mod LAND_GROWTH_INTERVAL = 0` (the interval defaults to 50), and
a resolved step applies the whole growth phase before the movement phase. -/
theorem growth_exact_and_before_movement (s : GameState) (a : AgentId) (r c : Nat)
    (hown : s.owner r c = some a) (halive : a ∈ s.alive) :
    ((s.terrain r c = Terrain.general ∨ s.terrain r c = Terrain.city →
        (growPhase s).army r c = s.army r c + 1) ∧
     (s.terrain r c ≠ Terrain.general ∧ s.terrain r c ≠ Terrain.city →
        ((growPhase s).army r c = s.army r c + 1 ↔ s.turn % LAND_GROWTH_INTERVAL = 0) ∧
        (¬ s.turn % LAND_GROWTH_INTERVAL = 0 → (growPhase s).army r c = s.army r c))) ∧
    LAND_GROWTH_INTERVAL = 50 ∧
    (∀ acts, structCheck s acts = true →
      step s acts =
        Except.ok (advanceTurn (movePhase (growPhase s) (resolveActs s acts)))) := by
  have hng : s.terrain r c ≠ Terrain.general ∧ s.terrain r c ≠ Terrain.city →
      ¬(s.terrain r c = Terrain.general ∨ s.terrain r c = Terrain.city) :=
    fun hp hc => hc.elim hp.1 hp.2
  refine ⟨⟨?_, ?_⟩, rfl, ?_⟩
  · intro hgc
    unfold growPhase
    dsimp only
    rw [hown]
    dsimp only
    rw [if_pos halive, if_pos hgc]
  · intro hplain
    constructor
    · unfold growPhase
      dsimp only
      rw [hown]
      dsimp only
      rw [if_pos halive, if_neg (hng hplain)]
      split
      · rename_i ht
        simp [ht]
      · rename_i ht
        simp [ht]
    · intro ht
      unfold growPhase
      dsimp only
      rw [hown]
      dsimp only
      rw [if_pos halive, if_neg (hng hplain), if_neg ht]
  · intro acts h
    simp [step, h, stepResult]

/-- C3 witness: on the fresh 1×2 game the owned GENERAL grows by one; on the
concrete turn-2 state agent 1's owned plain cell (0,2) does not grow (2 mod
50 ≠ 0); and a resolved step factors as movement after growth. -/
theorem growth_exact_witness :
    (growPhase wS).army 0 0 = wS.army 0 0 + 1 ∧
    (growPhase cexS2).army 0 2 = cexS2.army 0 2 ∧
    step wS [] =
      Except.ok (advanceTurn (movePhase (growPhase wS) (resolveActs wS []))) :=
  ⟨(growth_exact_and_before_movement wS 0 0 0 (by decide) (by decide)).1.1 (by decide),
   ((growth_exact_and_before_movement cexS2 1 0 2 (by decide) (by decide)).1.2
      (by decide)).2 (by decide),
   (growth_exact_and_before_movement wS 0 0 0 (by decide) (by decide)).2.2 [] (by decide)⟩

/-- C5: an attack on a destination not owned by the mover either exactly
annihilates the defense — the moved army equals the destination army, the
cell becomes NEUTRAL with army 0 and the attacker gains no ownership — or, if
defense remains, leaves ownership unchanged with the army reduced by the
moved amount. -/
theorem attack_neutralize_or_repel (s : GameState) (a : AgentId) (act : Action)
    (i j : Nat) (hd : destOf s act.row act.col act.dir = some (i, j))
    (hno : s.owner i j ≠ some a) :
    (movedAmount (s.army act.row act.col) act.split = s.army i j →
      (applyMove s a act).owner i j = none ∧ (applyMove s a act).army i j = 0) ∧
    (movedAmount (s.army act.row act.col) act.split < s.army i j →
      (applyMove s a act).owner i j = s.owner i j ∧
      (applyMove s a act).army i j =
        s.army i j - movedAmount (s.army act.row act.col) act.split) := by
  unfold applyMove
  rw [hd]
  dsimp only
  rw [if_neg hno]
  constructor
  · intro heq
    rw [if_neg (by omega), if_pos heq.symm]
    constructor
    · show (updCell _ i j none 0).owner i j = none
      simp [updCell]
    · show (updCell _ i j none 0).army i j = 0
      simp [updCell]
  · intro hlt
    rw [if_neg (by omega), if_neg (by omega)]
    constructor
    · rfl
    · show (updArmy _ i j _).army i j = _
      simp [updArmy]

/-- C5 witness: on the concrete state, moving 4 onto a foreign cell of army 4
neutralizes it (owner NEUTRAL, army 0), while split-moving 2 onto it leaves
the owner unchanged with army reduced to 2. -/
theorem attack_neutralize_or_repel_witness :
    ((applyMove wAtk 0 ⟨true, 0, 0, 3, false⟩).owner 0 1 = none ∧
      (applyMove wAtk 0 ⟨true, 0, 0, 3, false⟩).army 0 1 = 0) ∧
    ((applyMove wAtk 0 ⟨true, 0, 0, 3, true⟩).owner 0 1 = wAtk.owner 0 1 ∧
      (applyMove wAtk 0 ⟨true, 0, 0, 3, true⟩).army 0 1 =
        wAtk.army 0 1 - movedAmount (wAtk.army 0 0) true) :=
  ⟨(attack_neutralize_or_repel wAtk 0 ⟨true, 0, 0, 3, false⟩ 0 1
      (by decide) (by decide)).1 (by decide),
   (attack_neutralize_or_repel wAtk 0 ⟨true, 0, 0, 3, true⟩ 0 1
      (by decide) (by decide)).2 (by decide)⟩

/-- C9: the two static default reward functions of `GymnasiumGenerals` and
`Gym_Generals` are extensionally equal: both give 0 while the game runs and,
once done, 1 to a winner and -1 otherwise. -/
theorem default_reward_equiv (obs : RewardObs) (action : List Nat) (done : Bool)
    (info : List (Nat × Nat)) :
    gymnasiumGenerals_default_reward obs action done info =
      gymIntegration_default_reward obs action done info ∧
    (done = false → gymnasiumGenerals_default_reward obs action done info = 0) ∧
    (done = true → gymnasiumGenerals_default_reward obs action done info =
      (if obs.observation.is_winner then 1 else -1)) := by
  refine ⟨rfl, ?_, ?_⟩ <;> intro h <;> subst h <;> rfl

/-- C9 witness: with done = false the reward is 0; with done = true and a
winning observation it is 1 in both implementations. -/
theorem default_reward_equiv_witness :
    gymnasiumGenerals_default_reward ⟨⟨true⟩⟩ [] false [] = 0 ∧
    gymnasiumGenerals_default_reward ⟨⟨true⟩⟩ [] true [] =
      gymIntegration_default_reward ⟨⟨true⟩⟩ [] true [] ∧
    gymnasiumGenerals_default_reward ⟨⟨true⟩⟩ [] true [] = 1 :=
  ⟨(default_reward_equiv ⟨⟨true⟩⟩ [] false []).2.1 rfl,
   (default_reward_equiv ⟨⟨true⟩⟩ [] true []).1,
   (default_reward_equiv ⟨⟨true⟩⟩ [] true []).2.2 rfl⟩



/-- C4: a move that drives a GENERAL cell's army negative eliminates the
defending agent — each of its other cells transfers to the capturer with army
halved (rounded down), the captured general cell becomes the capturer's with
the absolute value of the negative result as army, the defeated agent leaves
`alive`, and — since `alive` only ever shrinks and every observation reports
the state's `alive` — it is absent from the alive set of every subsequent
observation. -/
theorem general_capture_eliminates (s : GameState) (a b : AgentId) (act : Action)
    (i j : Nat) (hd : destOf s act.row act.col act.dir = some (i, j))
    (hob : s.owner i j = some b) (hba : b ≠ a)
    (ht : s.terrain i j = Terrain.general)
    (hsrc : s.owner act.row act.col = some a)
    (hlt : s.army i j < movedAmount (s.army act.row act.col) act.split) :
    ((∀ r c, s.owner r c = some b → ¬(r = i ∧ c = j) →
        (applyMove s a act).owner r c = some a ∧
        (applyMove s a act).army r c = s.army r c / 2) ∧
      (applyMove s a act).owner i j = some a ∧
      (applyMove s a act).army i j =
        movedAmount (s.army act.row act.col) act.split - s.army i j ∧
      b ∉ (applyMove s a act).alive) ∧
    (∀ u v, Follows u v → b ∉ u.alive → b ∉ v.alive) ∧
    (∀ (u : GameState) (x : AgentId) (o : Option Action),
      b ∉ u.alive → b ∉ (agentAct u x o).alive) ∧
    (∀ (u : GameState) (x : AgentId), (agentObservation u x).alive = u.alive) := by
  have hnoa : ¬(s.owner i j = some a) := by
    rw [hob]
    intro hh
    injection hh with hh
    exact hba hh
  have hred : applyMove s a act =
      eliminate (updCell (updArmy s act.row act.col
          (s.army act.row act.col - movedAmount (s.army act.row act.col) act.split))
        i j (some a) (movedAmount (s.army act.row act.col) act.split - s.army i j))
        a b := by
    unfold applyMove
    rw [hd]
    dsimp only
    rw [if_neg hnoa, if_pos hlt, hob]
    dsimp only
    rw [if_pos ht]
  refine ⟨?_, ?_, ?_, ?_⟩
  · rw [hred]
    refine ⟨?_, ?_, ?_, ?_⟩
    · intro r c hrc hne
      have hsrcne : ¬(r = act.row ∧ c = act.col) := by
        rintro ⟨hr1, hc1⟩
        rw [hr1, hc1, hsrc] at hrc
        injection hrc with hrc
        exact hba hrc.symm
      have hs2o : (updCell (updArmy s act.row act.col
          (s.army act.row act.col - movedAmount (s.army act.row act.col) act.split))
          i j (some a) (movedAmount (s.army act.row act.col) act.split - s.army i j)).owner
            r c = some b := by
        unfold updCell updArmy
        dsimp only
        rw [if_neg hne]
        exact hrc
      have hs2a : (updCell (updArmy s act.row act.col
          (s.army act.row act.col - movedAmount (s.army act.row act.col) act.split))
          i j (some a) (movedAmount (s.army act.row act.col) act.split - s.army i j)).army
            r c = s.army r c := by
        unfold updCell updArmy
        dsimp only
        rw [if_neg hne, if_neg hsrcne]
      constructor
      · show (if _ = some b then some a else _) = some a
        rw [hs2o]
        simp
      · show (if _ = some b then _ / 2 else _) = s.army r c / 2
        rw [hs2o, if_pos rfl, hs2a]
    · have hs2oij : (updCell (updArmy s act.row act.col
          (s.army act.row act.col - movedAmount (s.army act.row act.col) act.split))
          i j (some a) (movedAmount (s.army act.row act.col) act.split - s.army i j)).owner
            i j = some a := by
        unfold updCell updArmy
        dsimp only
        rw [if_pos ⟨rfl, rfl⟩]
      show (if _ = some b then some a else _) = some a
      rw [hs2oij, if_neg (by intro hh; injection hh with hh; exact hba hh.symm)]
    · have hs2oij : (updCell (updArmy s act.row act.col
          (s.army act.row act.col - movedAmount (s.army act.row act.col) act.split))
          i j (some a) (movedAmount (s.army act.row act.col) act.split - s.army i j)).owner
            i j = some a := by
        unfold updCell updArmy
        dsimp only
        rw [if_pos ⟨rfl, rfl⟩]
      show (if _ = some b then _ / 2 else _) =
          movedAmount (s.army act.row act.col) act.split - s.army i j
      rw [hs2oij, if_neg (by intro hh; injection hh with hh; exact hba hh.symm)]
      show (updCell _ i j (some a) _).army i j = _
      unfold updCell updArmy
      dsimp only
      rw [if_pos ⟨rfl, rfl⟩]
    · show b ∉ List.filter _ _
      simp [List.mem_filter]
  · intro u v h hnot
    induction h with
    | refl => exact hnot
    | tail h1 h2 ih =>
      obtain ⟨acts2, hstep2⟩ := h2
      exact fun hmem => ih (step_alive_subset hstep2 hmem)
  · intro u x o hnot hmem
    exact hnot (agentAct_alive_subset u x o hmem)
  · intro u x
    rfl

/-- C4 witness: on the post-growth state of the concrete turn-4 capture,
agent 0's move takes agent 1's general (result −1, so army 1), transfers
agent 1's army-1 plain cells at (0,2) and (1,1) halved to army 0, and removes
agent 1 from `alive`. -/
theorem general_capture_eliminates_witness :
    ((applyMove (growPhase cexS3) 0 cexAct4).owner 0 2 = some 0 ∧
      (applyMove (growPhase cexS3) 0 cexAct4).army 0 2 =
        (growPhase cexS3).army 0 2 / 2) ∧
    (applyMove (growPhase cexS3) 0 cexAct4).owner 0 1 = some 0 ∧
    (applyMove (growPhase cexS3) 0 cexAct4).army 0 1 =
      movedAmount ((growPhase cexS3).army 0 0) false - (growPhase cexS3).army 0 1 ∧
    1 ∉ (applyMove (growPhase cexS3) 0 cexAct4).alive := by
  have h := (general_capture_eliminates (growPhase cexS3) 0 1 cexAct4 0 1
    (by decide) (by decide) (by decide) (by decide) (by decide) (by decide)).1
  exact ⟨h.1 0 2 (by decide) (by decide), h.2.1, h.2.2.1, h.2.2.2⟩


/-- C6 counterexample: the per-cell invariant is not maintained across
eliminations.  In the concrete 4-turn trace, agent 0 captures agent 1's
general while agent 1 owns the plain cell (0, 2) with army 1; the
elimination halves that army to 0 yet transfers its ownership to agent 0, so
the reached state has an owned non-GENERAL non-CITY cell with army 0. -/
theorem army_invariant_counterexample : Reachable cexS4 ∧ ¬ armyInvariant cexS4 := by
  constructor
  · have h1 := step_eq_ok_of_stepOkB cexS0 cexA1 (by decide)
    have h2 := step_eq_ok_of_stepOkB cexS1 cexA2 (by decide)
    have h3 := step_eq_ok_of_stepOkB cexS2 cexA3 (by decide)
    have h4 := step_eq_ok_of_stepOkB cexS3 cexA4 (by decide)
    exact Reachable.stepped _ _ _ (Reachable.stepped _ _ _ (Reachable.stepped _ _ _
      (Reachable.stepped _ _ _ (Reachable.base cexGrid) h1) h2) h3) h4
  · decide

/-- C6 (amended): in every GameState reachable from initialization by step()
calls none of which eliminates an agent, every owned non-GENERAL non-CITY
cell has army ≥ 1 and every owned GENERAL or CITY cell has army ≥ 1; an
eliminating step can break the invariant, because halving transfers a
defeated agent's army-1 cell with army 0. -/
theorem no_elimination_army_invariant : ∀ s, ReachableNoElim s → armyInvariant s :=
  fun s h => (reachableNoElim_inv s h).1

/-- C6 witness: the invariant holds at the concrete turn-2 state, reached by
two steps that eliminate nobody. -/
theorem no_elimination_army_invariant_witness : armyInvariant cexS2 :=
  no_elimination_army_invariant cexS2
    (ReachableNoElim.stepped cexS1 cexS2 cexA2
      (ReachableNoElim.stepped cexS0 cexS1 cexA1 (ReachableNoElim.base cexGrid)
        (step_eq_ok_of_stepOkB cexS0 cexA1 (by decide)) (by decide))
      (step_eq_ok_of_stepOkB cexS1 cexA2 (by decide)) (by decide))


theorem readN_append (xs rest : List Nat) :
    readN xs.length (xs ++ rest) = some (xs, rest) := by
  unfold readN
  rw [if_neg (by simp), List.take_left, List.drop_left]

theorem decodePairs_encode (l : List (Nat × Nat)) (rest : List Nat) :
    decodePairs l.length (encodePairs l ++ rest) = some (l, rest) := by
  induction l with
  | nil => rfl
  | cons p t ih =>
    show decodePairs (t.length + 1) (p.1 :: p.2 :: (encodePairs t ++ rest)) =
      some (p :: t, rest)
    unfold decodePairs
    rw [ih]

theorem decodeBlocks_encode (l : List (List Nat)) (rest : List Nat) :
    decodeBlocks l.length (encodeBlocks l ++ rest) = some (l, rest) := by
  induction l with
  | nil => rfl
  | cons s t ih =>
    have hassoc : encodeBlocks (s :: t) ++ rest =
        s.length :: (s ++ (encodeBlocks t ++ rest)) := by
      show (s.length :: (s ++ encodeBlocks t)) ++ rest = _
      simp [List.append_assoc]
    rw [hassoc]
    show decodeBlocks (t.length + 1) (s.length :: (s ++ (encodeBlocks t ++ rest))) =
      some (s :: t, rest)
    unfold decodeBlocks
    rw [if_neg (by simp), List.drop_left, List.take_left, ih]

/-- C7: storing a replay and loading it back reproduces the identical
snapshot sequence together with the initial grid header and agent metadata —
`load` is pure data parsing with no re-execution of game logic — and loading
fails with `ReplayCorruptionError` whenever the stored header's grid
metadata cannot reconstruct a state of the declared dimensions. -/
theorem replay_round_trip (r : Replay) :
    (r.terrain.length = r.rows * r.cols → load (store r) = Except.ok r) ∧
    (r.terrain.length ≠ r.rows * r.cols →
      load (store r) = Except.error GameError.replayCorruptionError) := by
  constructor
  · intro hwf
    unfold store load
    dsimp only
    rw [if_pos rfl, if_pos hwf, readN_append]
    dsimp only
    rw [decodePairs_encode]
    dsimp only
    rw [← List.append_nil (encodeBlocks r.snapshots), decodeBlocks_encode]
    rfl
  · intro hwf
    unfold store load
    dsimp only
    rw [if_pos rfl, if_neg hwf]

/-- C7 witness: a concrete well-formed replay round-trips exactly, and a
replay whose declared 2×2 dimensions disagree with its 1-cell terrain layout
fails to load with `ReplayCorruptionError`. -/
theorem replay_round_trip_witness :
    load (store wReplay) = Except.ok wReplay ∧
    load (store wReplayBad) = Except.error GameError.replayCorruptionError :=
  ⟨(replay_round_trip wReplay).1 (by decide),
   (replay_round_trip wReplayBad).2 (by decide)⟩

theorem envStep_eq_ok_of_envStepOkB {e : EnvState} {pol : Observation → List Nat}
    {action : List Nat} (h : envStepOkB e pol action = true) :
    envStep e pol action = Except.ok (envStepOrSame e pol action) := by
  unfold envStepOkB envStepOrSame at *
  cases hs : envStep e pol action with
  | ok t => rfl
  | error err => rw [hs] at h; exact absurd h (by simp)

/-- C8: whenever replay recording is active, every successful call to the
environment's step appends exactly one snapshot — the game's channels copied
after the turn is resolved — to the replay, while with recording inactive no
replay appears; and reset with recording requested starts the replay with
exactly the initial snapshot. -/
theorem replay_one_snapshot_per_step (e : EnvState) (pol : Observation → List Nat)
    (action : List Nat) (e' : EnvState)
    (hok : envStep e pol action = Except.ok e') :
    (∀ rp, e.replay = some rp →
      e'.replay = some (add_state rp (channelsOf e'.game)) ∧
      (add_state rp (channelsOf e'.game)).snapshots =
        rp.snapshots ++ [channelsOf e'.game] ∧
      (add_state rp (channelsOf e'.game)).snapshots.length =
        rp.snapshots.length + 1) ∧
    (e.replay = none → e'.replay = none) ∧
    (∀ (g : Grid) (aid nid : AgentId) (meta : List (Nat × Nat)),
      (envReset g aid nid meta true).replay =
        some (mkReplay g meta [channelsOf (initState g)])) := by
  unfold envStep at hok
  dsimp only at hok
  cases hs : step e.game
      [(e.agent_id, action), (e.npc_id, pol (agentObservation e.game e.npc_id))] with
  | error err => rw [hs] at hok; exact absurd hok (by simp)
  | ok g2 =>
    rw [hs] at hok
    dsimp only at hok
    injection hok with he
    subst he
    refine ⟨?_, ?_, ?_⟩
    · intro rp hrp
      rw [hrp]
      exact ⟨rfl, rfl, by simp [add_state]⟩
    · intro hrp
      rw [hrp]
    · intro g aid nid meta
      rfl

/-- C8 witness: one concrete environment step with recording active appends
exactly the post-step channels snapshot. -/
theorem replay_one_snapshot_per_step_witness :
    wEnvOut.replay = some (add_state (mkReplay wGrid [(0, 3), (1, 4)] [channelsOf wS])
      (channelsOf wEnvOut.game)) ∧
    (envReset wGrid 0 1 [] true).replay =
      some (mkReplay wGrid [] [channelsOf (initState wGrid)]) := by
  have h := replay_one_snapshot_per_step wEnv wPol [1, 0, 0, 0, 0] wEnvOut
    (envStep_eq_ok_of_envStepOkB (by decide))
  exact ⟨(h.1 (mkReplay wGrid [(0, 3), (1, 4)] [channelsOf wS]) rfl).1, h.2.2 wGrid 0 1 []⟩


theorem argDirs_nil (r c d : Nat) (cell : List Bool) (h : ∀ b ∈ cell, b = false) :
    argDirs r c d cell = [] := by
  induction cell generalizing d with
  | nil => rfl
  | cons b t ih =>
    have hb : b = false := h b (by simp)
    show (if b then [(r, c, d)] else []) ++ argDirs r c (d + 1) t = []
    rw [hb]
    show argDirs r c (d + 1) t = []
    exact ih (d + 1) (fun x hx => h x (List.mem_cons_of_mem _ hx))

theorem argCols_nil (r c : Nat) (row : List (List Bool))
    (h : ∀ cell ∈ row, ∀ b ∈ cell, b = false) : argCols r c row = [] := by
  induction row generalizing c with
  | nil => rfl
  | cons cell t ih =>
    show argDirs r c 0 cell ++ argCols r (c + 1) t = []
    rw [argDirs_nil r c 0 cell (h cell (by simp))]
    show argCols r (c + 1) t = []
    exact ih (c + 1) (fun x hx => h x (List.mem_cons_of_mem _ hx))

theorem argRows_nil (r : Nat) (mask : List (List (List Bool)))
    (h : ∀ row ∈ mask, ∀ cell ∈ row, ∀ b ∈ cell, b = false) : argRows r mask = [] := by
  induction mask generalizing r with
  | nil => rfl
  | cons row t ih =>
    show argCols r 0 row ++ argRows (r + 1) t = []
    rw [argCols_nil r 0 row (h row (by simp))]
    show argRows (r + 1) t = []
    exact ih (r + 1) (fun x hx => h x (List.mem_cons_of_mem _ hx))

theorem mask_fold_zero (m : List (List (List Bool))) (acc : Nat)
    (h : ∀ row ∈ m, ∀ cell ∈ row, ∀ b ∈ cell, b = false) :
    m.foldl (fun acc2 row =>
      acc2 + row.foldl (fun a2 cell => a2 + cell.countP (fun b => b)) 0) acc = acc := by
  induction m generalizing acc with
  | nil => rfl
  | cons row t ih =>
    have hrow : ∀ (acc2 : Nat),
        row.foldl (fun a2 cell => a2 + cell.countP (fun b => b)) acc2 = acc2 := by
      have hr := h row (by simp)
      clear h ih
      induction row with
      | nil => intro acc2; rfl
      | cons cell t2 ih2 =>
        intro acc2
        have hc : cell.countP (fun b => b) = 0 := by
          rw [List.countP_eq_zero]
          intro b hb
          simp [hr cell (by simp) b hb]
        show t2.foldl _ (acc2 + cell.countP (fun b => b)) = acc2
        rw [hc, Nat.add_zero]
        exact ih2 (fun x hx => hr x (List.mem_cons_of_mem _ hx)) acc2
    show t.foldl _ (acc + _) = acc
    rw [hrow 0, Nat.add_zero]
    exact ih acc (fun x hx => h x (List.mem_cons_of_mem _ hx))

theorem maskSum_zero (mask : List (List (List Bool)))
    (h : ∀ row ∈ mask, ∀ cell ∈ row, ∀ b ∈ cell, b = false) : maskSum mask = 0 :=
  mask_fold_zero mask 0 h

/-- C10: on an observation whose action mask has no legal entry, both
`RandomAgent.play` and `ExpanderAgent.play` return the idle action
`[1, 0, 0, 0, 0]`, whatever the random draws. -/
theorem agents_idle_on_empty_mask (obs : AgentObservation)
    (idleDraw splitDraw : Bool) (choice1 choice2 : Nat)
    (h : ∀ row ∈ obs.action_mask, ∀ cell ∈ row, ∀ b ∈ cell, b = false) :
    randomAgentPlay idleDraw splitDraw choice1 obs = [1, 0, 0, 0, 0] ∧
    expanderPlay choice2 obs = [1, 0, 0, 0, 0] := by
  have hempty : argwhereMask obs.action_mask = [] := argRows_nil 0 obs.action_mask h
  have hsum : maskSum obs.action_mask = 0 := maskSum_zero obs.action_mask h
  constructor
  · unfold randomAgentPlay
    dsimp only
    rw [show argwhereMask obs.action_mask = [] from hempty]
    simp
  · unfold expanderPlay
    dsimp only
    rw [hsum]
    simp

/-- C10 witness: on the concrete all-false 1×1 mask both policies return the
idle array. -/
theorem agents_idle_on_empty_mask_witness :
    randomAgentPlay false true 3 wEmptyObs = [1, 0, 0, 0, 0] ∧
    expanderPlay 5 wEmptyObs = [1, 0, 0, 0, 0] :=
  agents_idle_on_empty_mask wEmptyObs false true 3 5 (by decide)

end Generals
